import Mathlib

set_option maxHeartbeats 1000000

/-!
Shallow embedding of the SQS consumer core of social9/go-queues.

Embedded sources:
* `src/unnamed/part_001` — package `sqs`: `Config`, `validateOpts`, `NewSQS`,
  `Poll`, `Enqueue`, `Delete`, `ChangeVisibilityTimeout`.  This is the variant
  the claims cite for the poll-loop/admission behaviour (it is the one that
  decrements `handlerCount` in the handler goroutine).
* `src/streams/sqs/sqs.go` — the same package; its `Poll` has identical
  capacity/fetch/terminate logic (lines 145-204) and its `Enqueue` (207-223)
  and `validateOpts` (272-294) are line-for-line the same checks.

Go `int`/`int64` are modelled as `Int`.  External effects (the AWS calls, the
timed waits, the log lines) are recorded as events; the handler is external
user code, so its behaviour (how many delete/change-visibility calls it makes,
whether it returns or panics) is an input to the model.  Goroutine
interleaving is modelled as a sequentially consistent small-step system: one
step per statement-level action, driven by an explicit schedule.
-/

/-- Configuration, mirroring `Config` of `src/unnamed/part_001` lines 24-59
(the fields that `validateOpts`, `NewSQS` and `Poll` read).  `hasHandler`
models whether the function field `pollHandler` is non-nil (it is set by
`RegisterPollHandler`, line 239-241). -/
structure Config where
  AWSRegion : String
  URL : String
  BatchSize : Int
  WaitSeconds : Int
  VisibilityTimeout : Int
  RunOnce : Bool
  RunInterval : Int
  MaxHandlers : Int
  BusyTimeout : Int
  hasHandler : Bool
deriving DecidableEq

/-- `validateOpts`, `src/unnamed/part_001` lines 274-296 (identical to
`src/streams/sqs/sqs.go` lines 272-294).  Returns the error message, `none`
on success.  Note the checks use `< 0`, so `BatchSize = 0` and
`WaitSeconds = 0` pass even though the error strings document ranges
starting at 1, and the `VisibilityTimeout` message reads `WaitSecond`
(copy-paste in the source). -/
def validateOpts (opts : Config) : Option String :=
  if opts.AWSRegion = "" then some "AWSRegion is required"
  else if opts.URL = "" then some "A valid SQS URL is required"
  else if opts.BatchSize < 0 ∨ opts.BatchSize > 10 then
    some "BatchSize should be between 1-10"
  else if opts.WaitSeconds < 0 ∨ opts.WaitSeconds > 20 then
    some "WaitSecond should be between 1-20"
  else if opts.VisibilityTimeout < 0 ∨ opts.VisibilityTimeout > 12*60*60 then
    some "WaitSecond should be between 1-43200"
  else none

/-- A network call `NewSQS` can make.  Before returning, the only call that
reaches the AWS service is `GetQueueAttributes` (credentials are read from
the process environment, and config/session construction is local). -/
inductive NetCall
  | getQueueAttributes
deriving DecidableEq

/-- Environment facts `NewSQS` depends on after validation: whether env
credentials resolve, and whether the `GetQueueAttributes` probe succeeds. -/
structure NewSQSEnv where
  credsOk : Bool
  queueAttrsOk : Bool
deriving DecidableEq

/-- `NewSQS`, `src/unnamed/part_001` lines 71-125 (same structure in
`src/streams/sqs/sqs.go` lines 71-128): validates the options first and
returns the validation error before anything else happens; only after the
local credential/session setup does it issue the single network call
(`GetQueueAttributes`).  Result: (returned error if any, network calls
made). -/
def NewSQS (opts : Config) (env : NewSQSEnv) : Option String × List NetCall :=
  match validateOpts opts with
  | some e => (some e, [])
  | none =>
    if env.credsOk = false then
      (some "Invalid AWS credentials. Please make sure that `AWS_ACCESS_KEY_ID` and `AWS_SECRET_ACCESS_KEY` is present in the env", [])
    else if env.queueAttrsOk = false then
      (some "Unable to get queue attributes", [NetCall.getQueueAttributes])
    else (none, [NetCall.getQueueAttributes])

/-- Outcome of the batch-size computation at the top of a `Poll` iteration. -/
inductive ReserveOutcome
  | atCapacity
  | grant (n : Int)
deriving DecidableEq

/-- The capacity check and `maxMsgs` computation of `Poll`,
`src/unnamed/part_001` lines 142-154 (identically `src/streams/sqs/sqs.go`
lines 145-157):

    maxMsgs := s.BatchSize
    if s.MaxHandlers > 0 && s.handlerCount >= s.MaxHandlers {
        ...wait BusyTimeout seconds...; continue
    } else {
        maxMsgs = int64(s.MaxHandlers - s.handlerCount)
    }

The initial assignment of `BatchSize` is dead: the at-capacity branch
`continue`s and the else branch always overwrites `maxMsgs`. -/
def reserve (batchSize maxHandlers handlerCount : Int) : ReserveOutcome :=
  let _maxMsgs := batchSize
  if maxHandlers > 0 ∧ handlerCount ≥ maxHandlers then ReserveOutcome.atCapacity
  else
    let maxMsgs := maxHandlers - handlerCount
    ReserveOutcome.grant maxMsgs

/-- The `SendMessageBatch` output that `Enqueue` logs: a Go pointer, which
may be nil when the call errored. -/
inductive BatchResultPtr
  | nilPtr
  | ptr (successful failed : Nat)
deriving DecidableEq

/-- How a call to `Enqueue` ends. -/
inductive EnqueueOutcome
  | fatal (msg : String)
  | nilDeref
  | returned (err : Option String)
deriving DecidableEq

/-- `Enqueue`, `src/unnamed/part_001` lines 209-225 (identically
`src/streams/sqs/sqs.go` lines 207-223).  Input: whether `s.svc` is nil, and
the outcome `(result, err)` of the external `SendMessageBatch` call.  After
the call the code unconditionally logs `len(result.Successful)` and
`len(result.Failed)`; when `result` is the nil pointer that field access
faults (nil-pointer dereference) before `return err` is reached. -/
def Enqueue (svcNil : Bool) (result : BatchResultPtr) (err : Option String) :
    EnqueueOutcome :=
  if svcNil then EnqueueOutcome.fatal "No service connection"
  else
    match result with
    | BatchResultPtr.nilPtr => EnqueueOutcome.nilDeref
    | BatchResultPtr.ptr _ _ => EnqueueOutcome.returned err

/-- What the registered user handler does when invoked (external code):
return normally, or raise an unrecovered panic.  The goroutine wrapper in
`src/unnamed/part_001` lines 184-188 has no `recover`, so a panic aborts the
whole process. -/
inductive HOutcome
  | normal
  | fault
deriving DecidableEq

/-- One SQS message together with the (external) behaviour of the user
handler when invoked on it: `resolves` is the number of terminal resolution
calls (`Delete` / `ChangeVisibilityTimeout`) the handler body makes for it,
`outcome` whether the handler returns or panics. -/
structure Msg where
  id : Nat
  resolves : Nat
  outcome : HOutcome
deriving DecidableEq

/-- One `ReceiveMessage` reply from the backing queue: an error, or a batch
of messages (the queue delivers at most the requested number; the model
truncates the scripted batch to the request). -/
inductive Fetch
  | err (e : String)
  | msgs (l : List Msg)
deriving DecidableEq

/-- Progress of one handler goroutine.  The goroutine body
(`src/unnamed/part_001` lines 184-188) is:
`inst.pollHandler(msg); w.Done(); inst.handlerCount--`.
`running`: not yet executed the handler body; `didBody`: body returned,
`w.Done()` pending; `didDone`: `Done` executed, decrement pending;
`finished`: decrement executed; `faulted`: the body panicked (nothing after
it runs, and the process aborts). -/
inductive HPhase
  | running
  | didBody
  | didDone
  | finished
  | faulted
deriving DecidableEq

/-- State of one spawned handler goroutine.  `ranOn` is ghost state
recording which message value the body actually read from the shared loop
variable when it executed (the closure captures the range variable `msg` by
reference, so this is decided at execution time, not at spawn time). -/
structure HThread where
  phase : HPhase
  ranOn : Option Msg
deriving DecidableEq

/-- Observable events of a `Poll` run, newest first. -/
inductive Event
  | busyWait (seconds : Int)
  | fetch (maxMsgs : Int)
  | fetchErr (e : String)
  | spawned (id : Nat)
  | noHandlerLog
  | resolution (id : Nat)
  | intervalWait (seconds : Int)
deriving DecidableEq

/-- Control point of the `Poll` loop goroutine (`src/unnamed/part_001`
lines 128-206). -/
inductive PollPc
  | loopTop
  | fetching (maxMsgs : Int)
  | dispatching (pending : List Msg)
  | draining
  | returned
deriving DecidableEq

/-- Global state of a `Poll` run: the loop goroutine, the spawned handler
goroutines, the shared fields of `Config` that `Poll` mutates
(`handlerCount`), the `sync.WaitGroup` counter, the shared range variable
`msg`, the remaining fetch script of the backing queue, and the event
trace.  `returnedErr` models the value `Poll` hands back to its caller:
the Go signature is `func (s *Config) Poll()` — it returns nothing — so no
transition ever sets this field.  `crashed` is set by an unrecovered
handler panic, after which the whole process is gone and no goroutine
steps further. -/
structure PState where
  cfg : Config
  script : List Fetch
  pc : PollPc
  batch : Nat
  handlerCount : Int
  wg : Int
  curMsg : Option Msg
  hs : List HThread
  crashed : Bool
  returnedErr : Option String
  events : List Event
deriving DecidableEq

/-- Initial state of `Poll` (entry at line 128: `handlerCount` is the Go
zero value 0 from struct construction, `wg := sync.WaitGroup{}`,
`batch := 0`). -/
def initState (cfg : Config) (script : List Fetch) : PState :=
  { cfg := cfg, script := script, pc := PollPc.loopTop, batch := 0,
    handlerCount := 0, wg := 0, curMsg := none, hs := [],
    crashed := false, returnedErr := none, events := [] }

/-- One step of the `Poll` loop goroutine.  `none` means it has no enabled
step (blocked in `wg.Wait`, the scripted queue supplies nothing further, it
already returned, or the process crashed).

* `loopTop` (lines 137-154): `batch++`, then the capacity check / `maxMsgs`
  computation (`reserve`); at capacity it waits `BusyTimeout` seconds and
  `continue`s, otherwise it proceeds to `ReceiveMessage` with the granted
  count.
* `fetching` (lines 156-167): the external call returns the next scripted
  reply, truncated to the requested count; on error the loop `break`s to
  the final `wg.Wait()` (line 205).
* `dispatching` (lines 177-192): the range loop writes the shared variable
  `msg`; with a registered handler it does `s.handlerCount++`, `wg.Add(1)`
  and spawns the goroutine, otherwise it only logs.
* after the range loop (lines 194-203): `RunOnce` breaks to `wg.Wait()`,
  otherwise the loop waits `RunInterval` seconds and iterates.
* `draining` (line 205): `wg.Wait()` returns once the counter is zero. -/
def pollStep (s : PState) : Option PState :=
  if s.crashed then none
  else
    match s.pc with
    | PollPc.loopTop =>
      match reserve s.cfg.BatchSize s.cfg.MaxHandlers s.handlerCount with
      | ReserveOutcome.atCapacity =>
        some { s with batch := s.batch + 1,
                      events := Event.busyWait s.cfg.BusyTimeout :: s.events }
      | ReserveOutcome.grant n =>
        some { s with batch := s.batch + 1, pc := PollPc.fetching n }
    | PollPc.fetching n =>
      match s.script with
      | [] => none
      | Fetch.err e :: rest =>
        some { s with script := rest, pc := PollPc.draining,
                      events := Event.fetchErr e :: Event.fetch n :: s.events }
      | Fetch.msgs l :: rest =>
        some { s with script := rest,
                      pc := PollPc.dispatching (l.take n.toNat),
                      events := Event.fetch n :: s.events }
    | PollPc.dispatching (m :: rest) =>
      if s.cfg.hasHandler then
        some { s with curMsg := some m,
                      handlerCount := s.handlerCount + 1,
                      wg := s.wg + 1,
                      hs := s.hs ++ [{ phase := HPhase.running, ranOn := none }],
                      pc := PollPc.dispatching rest,
                      events := Event.spawned m.id :: s.events }
      else
        some { s with curMsg := some m, pc := PollPc.dispatching rest,
                      events := Event.noHandlerLog :: s.events }
    | PollPc.dispatching [] =>
      if s.cfg.RunOnce then some { s with pc := PollPc.draining }
      else
        some { s with pc := PollPc.loopTop,
                      events := Event.intervalWait s.cfg.RunInterval :: s.events }
    | PollPc.draining =>
      if s.wg = 0 then some { s with pc := PollPc.returned } else none
    | PollPc.returned => none

/-- One step of handler goroutine `i` (the closure of lines 184-188).
Executing the body reads the shared loop variable `msg` and performs the
user handler's resolution calls on that message; a panicking handler aborts
the process (`crashed := true`) without running `w.Done()` or the
decrement. -/
def handlerStep (i : Nat) (s : PState) : Option PState :=
  if s.crashed then none
  else
    match s.hs[i]? with
    | none => none
    | some t =>
      match t.phase with
      | HPhase.running =>
        match s.curMsg with
        | none => none
        | some m =>
          match m.outcome with
          | HOutcome.fault =>
            some { s with crashed := true,
                          hs := s.hs.set i { phase := HPhase.faulted, ranOn := some m },
                          events := List.replicate m.resolves (Event.resolution m.id) ++ s.events }
          | HOutcome.normal =>
            some { s with hs := s.hs.set i { phase := HPhase.didBody, ranOn := some m },
                          events := List.replicate m.resolves (Event.resolution m.id) ++ s.events }
      | HPhase.didBody =>
        some { s with wg := s.wg - 1,
                      hs := s.hs.set i { phase := HPhase.didDone, ranOn := t.ranOn } }
      | HPhase.didDone =>
        some { s with handlerCount := s.handlerCount - 1,
                      hs := s.hs.set i { phase := HPhase.finished, ranOn := t.ranOn } }
      | _ => none

/-- A schedule entry: let the poll goroutine step, or handler goroutine `i`
step. -/
inductive Sched
  | poll
  | handler (i : Nat)
deriving DecidableEq

/-- Execute one scheduled action. -/
def step (s : PState) (a : Sched) : Option PState :=
  match a with
  | Sched.poll => pollStep s
  | Sched.handler i => handlerStep i s

/-- Run a schedule from a state; `none` if some scheduled action is not
enabled. -/
def runFrom (s : PState) : List Sched → Option PState
  | [] => some s
  | a :: rest =>
    match step s a with
    | none => none
    | some s' => runFrom s' rest

/-- Sum of a per-goroutine weight over the spawned handler goroutines. -/
def csum (f : HThread → Nat) (l : List HThread) : Nat := (l.map f).sum

/-- Weight 1 for a goroutine that has not yet executed its
`handlerCount--` (the admission release). -/
def unfWeight (t : HThread) : Nat := if t.phase = HPhase.finished then 0 else 1

/-- Weight 1 for a goroutine that has not yet executed `w.Done()`. -/
def wgWeight (t : HThread) : Nat :=
  match t.phase with
  | HPhase.running => 1
  | HPhase.didBody => 1
  | HPhase.faulted => 1
  | _ => 0

/-- Resolution calls goroutine `t` has made for message id `id` (read off
the ghost record of which message value its body ran on). -/
def resWeight (id : Nat) (t : HThread) : Nat :=
  match t.ranOn with
  | some m => if m.id = id then m.resolves else 0
  | none => 0

/-- Number of spawned goroutines that still hold an admission slot. -/
def countUnfinished (hs : List HThread) : Nat := csum unfWeight hs

/-- Value of the `sync.WaitGroup` counter implied by the goroutine
phases. -/
def wgCount (hs : List HThread) : Nat := csum wgWeight hs

/-- Total resolution calls the executed handler bodies made for id `id`. -/
def ghostResolved (id : Nat) (hs : List HThread) : Nat := csum (resWeight id) hs

/-- Number of `Delete`/`ChangeVisibilityTimeout` calls for message id `id`
in the event trace. -/
def resCount (id : Nat) (evs : List Event) : Nat :=
  (evs.filter fun e => decide (e = Event.resolution id)).length

/-- Is this event a failed `ReceiveMessage`? -/
def isFetchErr : Event → Bool
  | Event.fetchErr _ => true
  | _ => false

/-- Is this event a `ReceiveMessage` call? -/
def isFetch : Event → Bool
  | Event.fetch _ => true
  | _ => false

/-- The trace contains a failed `ReceiveMessage`. -/
def hasErr (evs : List Event) : Bool := evs.any isFetchErr

/-- The trace (newest first) contains a `ReceiveMessage` call issued after
some earlier `ReceiveMessage` had already failed — i.e. a retried fetch. -/
def badRetry : List Event → Bool
  | [] => false
  | e :: rest => (isFetch e && hasErr rest) || badRetry rest

/-- Capacity part of the reachability invariant: with a configured maximum
`N > 0`, the in-flight count plus everything the loop is still committed to
dispatch stays within `N`. -/
def CapInv (s : PState) : Prop :=
  0 < s.cfg.MaxHandlers →
    match s.pc with
    | PollPc.fetching n => 0 ≤ n ∧ s.handlerCount + n ≤ s.cfg.MaxHandlers
    | PollPc.dispatching pending =>
      s.handlerCount + pending.length ≤ s.cfg.MaxHandlers
    | _ => s.handlerCount ≤ s.cfg.MaxHandlers

/-- Reachability invariant of the `Poll` system. -/
structure SysInv (s : PState) : Prop where
  count_eq : s.handlerCount = (countUnfinished s.hs : Int)
  wg_eq : s.wg = (wgCount s.hs : Int)
  res_eq : ∀ id, resCount id s.events = ghostResolved id s.hs
  running_ranOn : ∀ t ∈ s.hs, t.phase = HPhase.running → t.ranOn = none
  cap : CapInv s
  err_pc : hasErr s.events = true → s.pc = PollPc.draining ∨ s.pc = PollPc.returned
  no_retry : badRetry s.events = false
  ret_wg : s.pc = PollPc.returned → wgCount s.hs = 0
  no_handler : s.cfg.hasHandler = false → s.hs = []
  ret_none : s.returnedErr = none

/-- A well-formed configuration (passes `validateOpts`): the repository
example `src/main.go` uses BatchSize 10, RunOnce, MaxHandlers 10; this one
caps handlers at 2. -/
def cfgStd : Config :=
  { AWSRegion := "us-east-2", URL := "https://sqs.us-east-2.amazonaws.com/q",
    BatchSize := 10, WaitSeconds := 20, VisibilityTimeout := 20,
    RunOnce := true, RunInterval := 10, MaxHandlers := 2, BusyTimeout := 30,
    hasHandler := true }

/-- `cfgStd` with no handler registered (`RegisterPollHandler` never
called). -/
def cfgNoHandler : Config := { cfgStd with hasHandler := false }

/-- `cfgStd` with a single-handler cap. -/
def cfgOne : Config := { cfgStd with MaxHandlers := 1 }

/-- Final state of a full single-batch run: one message (id 7) whose
handler makes one resolution call and returns; the poll goroutine runs to
`returned`. -/
def sC1w : PState :=
  (runFrom (initState cfgStd [Fetch.msgs [{ id := 7, resolves := 1, outcome := HOutcome.normal }]])
    [Sched.poll, Sched.poll, Sched.poll, Sched.poll, Sched.handler 0,
     Sched.handler 0, Sched.handler 0, Sched.poll]).getD (initState cfgStd [])

/-- Mid-run state: one message dispatched, its handler still running. -/
def sC2w : PState :=
  (runFrom (initState cfgStd [Fetch.msgs [{ id := 1, resolves := 1, outcome := HOutcome.normal }]])
    [Sched.poll, Sched.poll, Sched.poll, Sched.poll]).getD (initState cfgStd [])

/-- Final state of a run whose only fetch fails. -/
def sC4w : PState :=
  (runFrom (initState cfgStd [Fetch.err "boom"])
    [Sched.poll, Sched.poll, Sched.poll]).getD (initState cfgStd [])

/-- Final state of a run with no handler registered. -/
def sC6w : PState :=
  (runFrom (initState cfgNoHandler [Fetch.msgs [{ id := 3, resolves := 1, outcome := HOutcome.normal }]])
    [Sched.poll, Sched.poll, Sched.poll, Sched.poll, Sched.poll]).getD (initState cfgNoHandler [])

/-- Final state of a full single-batch run with message id 9. -/
def sC8w : PState :=
  (runFrom (initState cfgStd [Fetch.msgs [{ id := 9, resolves := 1, outcome := HOutcome.normal }]])
    [Sched.poll, Sched.poll, Sched.poll, Sched.poll, Sched.handler 0,
     Sched.handler 0, Sched.handler 0, Sched.poll]).getD (initState cfgStd [])

/-- A state of a `MaxHandlers = 1` run at the top of the loop with one
handler still in flight: the capacity branch of lines 144-150 applies. -/
def sBusy : PState :=
  { cfg := cfgOne, script := [Fetch.msgs []], pc := PollPc.loopTop, batch := 1,
    handlerCount := 1, wg := 1, curMsg := none,
    hs := [{ phase := HPhase.running, ranOn := none }], crashed := false,
    returnedErr := none, events := [] }

theorem csum_append (f : HThread → Nat) (a b : List HThread) :
    csum f (a ++ b) = csum f a + csum f b := by
  simp [csum]

theorem mem_of_idx {α : Type} : ∀ {l : List α} {i : Nat} {t : α},
    l[i]? = some t → t ∈ l := by
  intro l
  induction l with
  | nil => intro i t h; simp at h
  | cons a l ih =>
    intro i t h
    cases i with
    | zero => simp at h; simp [h]
    | succ j =>
      simp only [List.getElem?_cons_succ] at h
      exact List.mem_cons_of_mem a (ih h)

theorem sum_map_set {α : Type} (f : α → Nat) : ∀ (l : List α) (i : Nat) (v t : α),
    l[i]? = some t → ((l.set i v).map f).sum + f t = (l.map f).sum + f v := by
  intro l
  induction l with
  | nil => intro i v t h; simp at h
  | cons a l ih =>
    intro i v t h
    cases i with
    | zero =>
      simp at h
      subst h
      simp only [List.set_cons_zero, List.map_cons, List.sum_cons]
      omega
    | succ j =>
      simp only [List.getElem?_cons_succ] at h
      simp only [List.set_cons_succ, List.map_cons, List.sum_cons]
      have := ih j v t h
      omega

theorem csum_set {l : List HThread} {i : Nat} {t : HThread} (f : HThread → Nat)
    (v : HThread) (h : l[i]? = some t) :
    csum f (l.set i v) + f t = csum f l + f v :=
  sum_map_set f l i v t h

theorem elem_le_csum (f : HThread → Nat) {t : HThread} {l : List HThread}
    (h : t ∈ l) : f t ≤ csum f l := by
  induction l with
  | nil => simp at h
  | cons a l ih =>
    rcases List.mem_cons.mp h with h' | h'
    · subst h'
      simp only [csum, List.map_cons, List.sum_cons]
      omega
    · have := ih h'
      simp only [csum, List.map_cons, List.sum_cons] at this ⊢
      omega

theorem resCount_cons (id : Nat) (e : Event) (evs : List Event) :
    resCount id (e :: evs)
      = (if e = Event.resolution id then 1 else 0) + resCount id evs := by
  simp only [resCount, List.filter_cons]
  split
  · simp_all
    omega
  · simp_all

theorem resCount_replicate (id n mid : Nat) (evs : List Event) :
    resCount id (List.replicate n (Event.resolution mid) ++ evs)
      = (if mid = id then n else 0) + resCount id evs := by
  induction n with
  | zero => simp
  | succ k ih =>
    simp only [List.replicate_succ, List.cons_append, resCount_cons, ih]
    by_cases h : mid = id
    · simp [h]
      omega
    · simp [h]

theorem hasErr_cons (e : Event) (evs : List Event) :
    hasErr (e :: evs) = (isFetchErr e || hasErr evs) := by
  simp [hasErr]

theorem hasErr_replicate_res (n mid : Nat) (evs : List Event) :
    hasErr (List.replicate n (Event.resolution mid) ++ evs) = hasErr evs := by
  induction n with
  | zero => simp
  | succ k ih => simp [List.replicate_succ, hasErr_cons, ih, isFetchErr]

theorem badRetry_cons (e : Event) (evs : List Event) :
    badRetry (e :: evs) = ((isFetch e && hasErr evs) || badRetry evs) := rfl

theorem badRetry_replicate_res (n mid : Nat) (evs : List Event) :
    badRetry (List.replicate n (Event.resolution mid) ++ evs) = badRetry evs := by
  induction n with
  | zero => simp
  | succ k ih =>
    simp [List.replicate_succ, badRetry_cons, ih, isFetch,
          hasErr_replicate_res]

theorem inv_init (cfg : Config) (script : List Fetch) :
    SysInv (initState cfg script) where
  count_eq := by simp [initState, countUnfinished, csum]
  wg_eq := by simp [initState, wgCount, csum]
  res_eq := by intro id; simp [initState, resCount, ghostResolved, csum]
  running_ranOn := by intro t ht _; simp [initState] at ht
  cap := by
    intro h
    simp only [initState] at h
    show (0 : Int) ≤ cfg.MaxHandlers
    omega
  err_pc := by simp [initState, hasErr]
  no_retry := by simp [initState, badRetry]
  ret_wg := by intro h; simp [initState] at h
  no_handler := fun _ => rfl
  ret_none := rfl

theorem err_false_of_pc_ne {s : PState} (h : SysInv s)
    (h1 : s.pc ≠ PollPc.draining) (h2 : s.pc ≠ PollPc.returned) :
    hasErr s.events = false := by
  cases hE : hasErr s.events
  · rfl
  · rcases h.err_pc hE with hd | hr
    · exact absurd hd h1
    · exact absurd hr h2

theorem inv_poll {s s' : PState} (h : SysInv s) (hstep : pollStep s = some s') :
    SysInv s' := by
  unfold pollStep at hstep
  by_cases hc : s.crashed = true
  · simp [hc] at hstep
  · rw [Bool.not_eq_true] at hc
    simp only [hc, Bool.false_eq_true, if_false] at hstep
    cases hpc : s.pc with
    | loopTop =>
      simp only [hpc] at hstep
      have herr : hasErr s.events = false :=
        err_false_of_pc_ne h (by rw [hpc]; simp) (by rw [hpc]; simp)
      cases hr : reserve s.cfg.BatchSize s.cfg.MaxHandlers s.handlerCount with
      | atCapacity =>
        simp only [hr, Option.some.injEq] at hstep
        subst hstep
        refine ⟨h.count_eq, h.wg_eq, ?_, h.running_ranOn, ?_, ?_, ?_, ?_,
                h.no_handler, h.ret_none⟩
        · intro id
          simp [resCount_cons, h.res_eq id]
        · intro hN
          have hcap := h.cap hN
          rw [hpc] at hcap
          exact hcap
        · intro hE
          rw [hasErr_cons] at hE
          simp [isFetchErr, herr] at hE
        · rw [badRetry_cons]
          simp [isFetch, h.no_retry]
        · intro hret
          simp at hret
      | grant n =>
        simp only [hr, Option.some.injEq] at hstep
        subst hstep
        have hn : ¬(s.cfg.MaxHandlers > 0 ∧ s.handlerCount ≥ s.cfg.MaxHandlers)
            ∧ n = s.cfg.MaxHandlers - s.handlerCount := by
          unfold reserve at hr
          split at hr
          · cases hr
          · cases hr
            constructor
            · assumption
            · rfl
        refine ⟨h.count_eq, h.wg_eq, ?_, h.running_ranOn, ?_, ?_, h.no_retry,
                ?_, h.no_handler, h.ret_none⟩
        · intro id
          exact h.res_eq id
        · intro hN
          have hN' : 0 < s.cfg.MaxHandlers := hN
          show 0 ≤ n ∧ s.handlerCount + n ≤ s.cfg.MaxHandlers
          rcases hn with ⟨hlt, rfl⟩
          have : s.handlerCount < s.cfg.MaxHandlers := by
            by_contra hge
            exact hlt ⟨hN', by omega⟩
          omega
        · intro hE
          rw [hE] at herr
          cases herr
        · intro hret
          simp at hret
    | fetching n =>
      simp only [hpc] at hstep
      have herr : hasErr s.events = false :=
        err_false_of_pc_ne h (by rw [hpc]; simp) (by rw [hpc]; simp)
      cases hscript : s.script with
      | nil => simp [hscript] at hstep
      | cons hd rest =>
        cases hd with
        | err e =>
          simp only [hscript, Option.some.injEq] at hstep
          subst hstep
          refine ⟨h.count_eq, h.wg_eq, ?_, h.running_ranOn, ?_, ?_, ?_, ?_,
                  h.no_handler, h.ret_none⟩
          · intro id
            simp [resCount_cons, h.res_eq id]
          · intro hN
            have hcap := h.cap hN
            rw [hpc] at hcap
            show s.handlerCount ≤ s.cfg.MaxHandlers
            omega
          · intro _
            left
            rfl
          · rw [badRetry_cons, badRetry_cons]
            simp [isFetch, isFetchErr, hasErr_cons, herr, h.no_retry]
          · intro hret
            simp at hret
        | msgs l =>
          simp only [hscript, Option.some.injEq] at hstep
          subst hstep
          refine ⟨h.count_eq, h.wg_eq, ?_, h.running_ranOn, ?_, ?_, ?_, ?_,
                  h.no_handler, h.ret_none⟩
          · intro id
            simp [resCount_cons, h.res_eq id]
          · intro hN
            have hcap := h.cap hN
            rw [hpc] at hcap
            show s.handlerCount + ((l.take n.toNat).length : Int)
                ≤ s.cfg.MaxHandlers
            have hlen : (l.take n.toNat).length ≤ n.toNat := by
              simp [List.length_take]
            omega
          · intro hE
            rw [hasErr_cons] at hE
            simp [isFetchErr, herr] at hE
          · rw [badRetry_cons]
            simp [isFetch, herr, h.no_retry]
          · intro hret
            simp at hret
    | dispatching pending =>
      simp only [hpc] at hstep
      have herr : hasErr s.events = false :=
        err_false_of_pc_ne h (by rw [hpc]; simp) (by rw [hpc]; simp)
      cases pending with
      | cons m rest =>
        by_cases hh : s.cfg.hasHandler = true
        · simp only [hh, if_true, Option.some.injEq] at hstep
          subst hstep
          refine ⟨?_, ?_, ?_, ?_, ?_, ?_, ?_, ?_, ?_, h.ret_none⟩
          · show s.handlerCount + 1
              = (countUnfinished (s.hs ++ [{ phase := HPhase.running, ranOn := none }]) : Int)
            rw [countUnfinished, csum_append]
            have hone : csum unfWeight [{ phase := HPhase.running, ranOn := none }] = 1 := rfl
            rw [hone]
            have hcnt := h.count_eq
            rw [countUnfinished] at hcnt
            omega
          · show s.wg + 1
              = (wgCount (s.hs ++ [{ phase := HPhase.running, ranOn := none }]) : Int)
            rw [wgCount, csum_append]
            have hone : csum wgWeight [{ phase := HPhase.running, ranOn := none }] = 1 := rfl
            rw [hone]
            have hwg := h.wg_eq
            rw [wgCount] at hwg
            omega
          · intro id
            show resCount id (Event.spawned m.id :: s.events)
              = ghostResolved id (s.hs ++ [{ phase := HPhase.running, ranOn := none }])
            rw [resCount_cons, ghostResolved, csum_append]
            have hz : csum (resWeight id) [{ phase := HPhase.running, ranOn := none }] = 0 := rfl
            rw [hz]
            have hres := h.res_eq id
            rw [ghostResolved] at hres
            have hif : (if Event.spawned m.id = Event.resolution id then 1 else 0) = 0 := by
              simp
            rw [hif]
            omega
          · intro t ht hrun
            rcases List.mem_append.mp ht with hold | hnew
            · exact h.running_ranOn t hold hrun
            · simp at hnew
              rw [hnew]
          · intro hN
            have hcap := h.cap hN
            rw [hpc] at hcap
            show s.handlerCount + 1 + (rest.length : Int) ≤ s.cfg.MaxHandlers
            simp at hcap
            omega
          · intro hE
            rw [hasErr_cons] at hE
            simp [isFetchErr, herr] at hE
          · rw [badRetry_cons]
            simp [isFetch, h.no_retry]
          · intro hret
            simp at hret
          · intro hfalse
            rw [hfalse] at hh
            cases hh
        · rw [Bool.not_eq_true] at hh
          simp only [hh, Bool.false_eq_true, if_false, Option.some.injEq] at hstep
          subst hstep
          refine ⟨h.count_eq, h.wg_eq, ?_, h.running_ranOn, ?_, ?_, ?_, ?_,
                  h.no_handler, h.ret_none⟩
          · intro id
            simp [resCount_cons, h.res_eq id]
          · intro hN
            have hcap := h.cap hN
            rw [hpc] at hcap
            show s.handlerCount + (rest.length : Int) ≤ s.cfg.MaxHandlers
            simp at hcap
            omega
          · intro hE
            rw [hasErr_cons] at hE
            simp [isFetchErr, herr] at hE
          · rw [badRetry_cons]
            simp [isFetch, h.no_retry]
          · intro hret
            simp at hret
      | nil =>
        by_cases ho : s.cfg.RunOnce = true
        · simp only [ho, if_true, Option.some.injEq] at hstep
          subst hstep
          refine ⟨h.count_eq, h.wg_eq, h.res_eq, h.running_ranOn, ?_, ?_,
                  h.no_retry, ?_, h.no_handler, h.ret_none⟩
          · intro hN
            have hcap := h.cap hN
            rw [hpc] at hcap
            show s.handlerCount ≤ s.cfg.MaxHandlers
            simp at hcap
            omega
          · intro _
            left
            rfl
          · intro hret
            simp at hret
        · rw [Bool.not_eq_true] at ho
          simp only [ho, Bool.false_eq_true, if_false, Option.some.injEq] at hstep
          subst hstep
          refine ⟨h.count_eq, h.wg_eq, ?_, h.running_ranOn, ?_, ?_, ?_, ?_,
                  h.no_handler, h.ret_none⟩
          · intro id
            simp [resCount_cons, h.res_eq id]
          · intro hN
            have hcap := h.cap hN
            rw [hpc] at hcap
            show s.handlerCount ≤ s.cfg.MaxHandlers
            simp at hcap
            omega
          · intro hE
            rw [hasErr_cons] at hE
            simp [isFetchErr, herr] at hE
          · rw [badRetry_cons]
            simp [isFetch, h.no_retry]
          · intro hret
            simp at hret
    | draining =>
      simp only [hpc] at hstep
      by_cases hw : s.wg = 0
      · simp only [hw, if_pos, Option.some.injEq] at hstep
        subst hstep
        refine ⟨h.count_eq, ?_, h.res_eq, h.running_ranOn, ?_, ?_,
                h.no_retry, ?_, h.no_handler, h.ret_none⟩
        · show (0 : Int) = (wgCount s.hs : Int)
          have := h.wg_eq
          omega
        · intro hN
          have hcap := h.cap hN
          rw [hpc] at hcap
          show s.handlerCount ≤ s.cfg.MaxHandlers
          simp at hcap
          omega
        · intro _
          right
          rfl
        · intro _
          show wgCount s.hs = 0
          have := h.wg_eq
          omega
      · simp [hw] at hstep
    | returned =>
      simp only [hpc] at hstep
      cases hstep

theorem capInv_mono {s s' : PState}
    (hcfg : s'.cfg.MaxHandlers = s.cfg.MaxHandlers) (hp : s'.pc = s.pc)
    (hcnt : s'.handlerCount ≤ s.handlerCount) (cap : CapInv s) : CapInv s' := by
  intro hN
  have hN' : 0 < s.cfg.MaxHandlers := by omega
  have hcap := cap hN'
  rw [hp, hcfg]
  cases hpc2 : s.pc with
  | loopTop =>
    rw [hpc2] at hcap
    simp at hcap ⊢
    omega
  | fetching n =>
    rw [hpc2] at hcap
    simp at hcap ⊢
    omega
  | dispatching pending =>
    rw [hpc2] at hcap
    simp at hcap ⊢
    omega
  | draining =>
    rw [hpc2] at hcap
    simp at hcap ⊢
    omega
  | returned =>
    rw [hpc2] at hcap
    simp at hcap ⊢
    omega

theorem inv_handler {s s' : PState} {i : Nat} (h : SysInv s)
    (hstep : handlerStep i s = some s') : SysInv s' := by
  unfold handlerStep at hstep
  by_cases hc : s.crashed = true
  · simp [hc] at hstep
  · rw [Bool.not_eq_true] at hc
    simp only [hc, Bool.false_eq_true, if_false] at hstep
    cases hidx : s.hs[i]? with
    | none => simp [hidx] at hstep
    | some t =>
      simp only [hidx] at hstep
      have hmem : t ∈ s.hs := mem_of_idx hidx
      cases hph : t.phase with
      | finished => simp only [hph] at hstep; cases hstep
      | faulted => simp only [hph] at hstep; cases hstep
      | running =>
        simp only [hph] at hstep
        cases hcur : s.curMsg with
        | none => simp [hcur] at hstep
        | some m =>
          simp only [hcur] at hstep
          have hran : t.ranOn = none := h.running_ranOn t hmem hph
          have hwt : wgWeight t = 1 := by simp [wgWeight, hph]
          have hut : unfWeight t = 1 := by simp [unfWeight, hph]
          have hrt : ∀ id, resWeight id t = 0 := by
            intro id
            simp [resWeight, hran]
          cases hout : m.outcome with
          | fault =>
            simp only [hout, Option.some.injEq] at hstep
            subst hstep
            refine ⟨?_, ?_, ?_, ?_, ?_, ?_, ?_, ?_, ?_, h.ret_none⟩
            · show s.handlerCount
                = (countUnfinished (s.hs.set i { phase := HPhase.faulted, ranOn := some m }) : Int)
              have hs1 := csum_set unfWeight { phase := HPhase.faulted, ranOn := some m } hidx
              have hv : unfWeight { phase := HPhase.faulted, ranOn := some m } = 1 := rfl
              rw [hut, hv] at hs1
              have hcnt := h.count_eq
              rw [countUnfinished] at hcnt ⊢
              omega
            · show s.wg
                = (wgCount (s.hs.set i { phase := HPhase.faulted, ranOn := some m }) : Int)
              have hs1 := csum_set wgWeight { phase := HPhase.faulted, ranOn := some m } hidx
              have hv : wgWeight { phase := HPhase.faulted, ranOn := some m } = 1 := rfl
              rw [hwt, hv] at hs1
              have hwg := h.wg_eq
              rw [wgCount] at hwg ⊢
              omega
            · intro id
              show resCount id (List.replicate m.resolves (Event.resolution m.id) ++ s.events)
                = ghostResolved id (s.hs.set i { phase := HPhase.faulted, ranOn := some m })
              rw [resCount_replicate]
              have hs1 := csum_set (resWeight id) { phase := HPhase.faulted, ranOn := some m } hidx
              have hv : resWeight id { phase := HPhase.faulted, ranOn := some m }
                  = if m.id = id then m.resolves else 0 := rfl
              rw [hrt id, hv] at hs1
              have hres := h.res_eq id
              rw [ghostResolved] at hres ⊢
              by_cases hid : m.id = id
              · simp only [hid, if_true] at hs1 ⊢
                omega
              · simp only [hid, if_false] at hs1 ⊢
                omega
            · intro t' ht' hrun'
              rcases List.mem_or_eq_of_mem_set ht' with hold | hv
              · exact h.running_ranOn t' hold hrun'
              · rw [hv] at hrun'
                cases hrun'
            · exact capInv_mono (by rfl) (by rfl) (by exact le_refl _) h.cap
            · intro hE
              rw [hasErr_replicate_res] at hE
              exact h.err_pc hE
            · rw [badRetry_replicate_res]
              exact h.no_retry
            · intro hret
              exfalso
              have h0 := h.ret_wg hret
              have hle := elem_le_csum wgWeight hmem
              rw [wgCount] at h0
              omega
            · intro hh
              exfalso
              rw [h.no_handler hh] at hidx
              simp at hidx
          | normal =>
            simp only [hout, Option.some.injEq] at hstep
            subst hstep
            refine ⟨?_, ?_, ?_, ?_, ?_, ?_, ?_, ?_, ?_, h.ret_none⟩
            · show s.handlerCount
                = (countUnfinished (s.hs.set i { phase := HPhase.didBody, ranOn := some m }) : Int)
              have hs1 := csum_set unfWeight { phase := HPhase.didBody, ranOn := some m } hidx
              have hv : unfWeight { phase := HPhase.didBody, ranOn := some m } = 1 := rfl
              rw [hut, hv] at hs1
              have hcnt := h.count_eq
              rw [countUnfinished] at hcnt ⊢
              omega
            · show s.wg
                = (wgCount (s.hs.set i { phase := HPhase.didBody, ranOn := some m }) : Int)
              have hs1 := csum_set wgWeight { phase := HPhase.didBody, ranOn := some m } hidx
              have hv : wgWeight { phase := HPhase.didBody, ranOn := some m } = 1 := rfl
              rw [hwt, hv] at hs1
              have hwg := h.wg_eq
              rw [wgCount] at hwg ⊢
              omega
            · intro id
              show resCount id (List.replicate m.resolves (Event.resolution m.id) ++ s.events)
                = ghostResolved id (s.hs.set i { phase := HPhase.didBody, ranOn := some m })
              rw [resCount_replicate]
              have hs1 := csum_set (resWeight id) { phase := HPhase.didBody, ranOn := some m } hidx
              have hv : resWeight id { phase := HPhase.didBody, ranOn := some m }
                  = if m.id = id then m.resolves else 0 := rfl
              rw [hrt id, hv] at hs1
              have hres := h.res_eq id
              rw [ghostResolved] at hres ⊢
              by_cases hid : m.id = id
              · simp only [hid, if_true] at hs1 ⊢
                omega
              · simp only [hid, if_false] at hs1 ⊢
                omega
            · intro t' ht' hrun'
              rcases List.mem_or_eq_of_mem_set ht' with hold | hv
              · exact h.running_ranOn t' hold hrun'
              · rw [hv] at hrun'
                cases hrun'
            · exact capInv_mono (by rfl) (by rfl) (by exact le_refl _) h.cap
            · intro hE
              rw [hasErr_replicate_res] at hE
              exact h.err_pc hE
            · rw [badRetry_replicate_res]
              exact h.no_retry
            · intro hret
              exfalso
              have h0 := h.ret_wg hret
              have hle := elem_le_csum wgWeight hmem
              rw [wgCount] at h0
              omega
            · intro hh
              exfalso
              rw [h.no_handler hh] at hidx
              simp at hidx
      | didBody =>
        simp only [hph, Option.some.injEq] at hstep
        subst hstep
        have hwt : wgWeight t = 1 := by simp [wgWeight, hph]
        have hut : unfWeight t = 1 := by simp [unfWeight, hph]
        refine ⟨?_, ?_, ?_, ?_, ?_, ?_, h.no_retry, ?_, ?_, h.ret_none⟩
        · show s.handlerCount
            = (countUnfinished (s.hs.set i { phase := HPhase.didDone, ranOn := t.ranOn }) : Int)
          have hs1 := csum_set unfWeight { phase := HPhase.didDone, ranOn := t.ranOn } hidx
          have hv : unfWeight { phase := HPhase.didDone, ranOn := t.ranOn } = 1 := rfl
          rw [hut, hv] at hs1
          have hcnt := h.count_eq
          rw [countUnfinished] at hcnt ⊢
          omega
        · show s.wg - 1
            = (wgCount (s.hs.set i { phase := HPhase.didDone, ranOn := t.ranOn }) : Int)
          have hs1 := csum_set wgWeight { phase := HPhase.didDone, ranOn := t.ranOn } hidx
          have hv : wgWeight { phase := HPhase.didDone, ranOn := t.ranOn } = 0 := rfl
          rw [hwt, hv] at hs1
          have hwg := h.wg_eq
          rw [wgCount] at hwg ⊢
          omega
        · intro id
          show resCount id s.events
            = ghostResolved id (s.hs.set i { phase := HPhase.didDone, ranOn := t.ranOn })
          have hs1 := csum_set (resWeight id) { phase := HPhase.didDone, ranOn := t.ranOn } hidx
          have hv : resWeight id { phase := HPhase.didDone, ranOn := t.ranOn } = resWeight id t := rfl
          rw [hv] at hs1
          have hres := h.res_eq id
          rw [ghostResolved] at hres ⊢
          omega
        · intro t' ht' hrun'
          rcases List.mem_or_eq_of_mem_set ht' with hold | hv
          · exact h.running_ranOn t' hold hrun'
          · rw [hv] at hrun'
            cases hrun'
        · exact capInv_mono (by rfl) (by rfl) (by exact le_refl _) h.cap
        · intro hE
          exact h.err_pc hE
        · intro hret
          exfalso
          have h0 := h.ret_wg hret
          have hle := elem_le_csum wgWeight hmem
          rw [wgCount] at h0
          omega
        · intro hh
          exfalso
          rw [h.no_handler hh] at hidx
          simp at hidx
      | didDone =>
        simp only [hph, Option.some.injEq] at hstep
        subst hstep
        have hwt : wgWeight t = 0 := by simp [wgWeight, hph]
        have hut : unfWeight t = 1 := by simp [unfWeight, hph]
        refine ⟨?_, ?_, ?_, ?_, ?_, ?_, h.no_retry, ?_, ?_, h.ret_none⟩
        · show s.handlerCount - 1
            = (countUnfinished (s.hs.set i { phase := HPhase.finished, ranOn := t.ranOn }) : Int)
          have hs1 := csum_set unfWeight { phase := HPhase.finished, ranOn := t.ranOn } hidx
          have hv : unfWeight { phase := HPhase.finished, ranOn := t.ranOn } = 0 := rfl
          rw [hut, hv] at hs1
          have hcnt := h.count_eq
          rw [countUnfinished] at hcnt ⊢
          omega
        · show s.wg
            = (wgCount (s.hs.set i { phase := HPhase.finished, ranOn := t.ranOn }) : Int)
          have hs1 := csum_set wgWeight { phase := HPhase.finished, ranOn := t.ranOn } hidx
          have hv : wgWeight { phase := HPhase.finished, ranOn := t.ranOn } = 0 := rfl
          rw [hwt, hv] at hs1
          have hwg := h.wg_eq
          rw [wgCount] at hwg ⊢
          omega
        · intro id
          show resCount id s.events
            = ghostResolved id (s.hs.set i { phase := HPhase.finished, ranOn := t.ranOn })
          have hs1 := csum_set (resWeight id) { phase := HPhase.finished, ranOn := t.ranOn } hidx
          have hv : resWeight id { phase := HPhase.finished, ranOn := t.ranOn } = resWeight id t := rfl
          rw [hv] at hs1
          have hres := h.res_eq id
          rw [ghostResolved] at hres ⊢
          omega
        · intro t' ht' hrun'
          rcases List.mem_or_eq_of_mem_set ht' with hold | hv
          · exact h.running_ranOn t' hold hrun'
          · rw [hv] at hrun'
            cases hrun'
        · exact capInv_mono (by rfl) (by rfl)
            (by show s.handlerCount - 1 ≤ s.handlerCount; omega) h.cap
        · intro hE
          exact h.err_pc hE
        · intro hret
          have h0 := h.ret_wg hret
          show wgCount (s.hs.set i { phase := HPhase.finished, ranOn := t.ranOn }) = 0
          have hs1 := csum_set wgWeight { phase := HPhase.finished, ranOn := t.ranOn } hidx
          have hv : wgWeight { phase := HPhase.finished, ranOn := t.ranOn } = 0 := rfl
          rw [hwt, hv] at hs1
          rw [wgCount] at h0 ⊢
          omega
        · intro hh
          exfalso
          rw [h.no_handler hh] at hidx
          simp at hidx

theorem inv_step {s s' : PState} {a : Sched} (h : SysInv s)
    (hstep : step s a = some s') : SysInv s' := by
  cases a with
  | poll => exact inv_poll h hstep
  | handler i => exact inv_handler h hstep

theorem inv_run : ∀ {acts : List Sched} {s s' : PState}, SysInv s →
    runFrom s acts = some s' → SysInv s' := by
  intro acts
  induction acts with
  | nil =>
    intro s s' h hrun
    simp [runFrom] at hrun
    rw [← hrun]
    exact h
  | cons a rest ih =>
    intro s s' h hrun
    simp only [runFrom] at hrun
    cases hstep : step s a with
    | none => rw [hstep] at hrun; cases hrun
    | some s1 =>
      rw [hstep] at hrun
      exact ih (inv_step h hstep) hrun

theorem inv_reachable {cfg : Config} {script : List Fetch} {acts : List Sched}
    {s' : PState} (hrun : runFrom (initState cfg script) acts = some s') :
    SysInv s' :=
  inv_run (inv_init cfg script) hrun

theorem pollStep_cfg {s s' : PState} (h : pollStep s = some s') :
    s'.cfg = s.cfg := by
  unfold pollStep at h
  repeat' split at h
  all_goals cases h
  all_goals rfl

theorem handlerStep_cfg {s s' : PState} {i : Nat} (h : handlerStep i s = some s') :
    s'.cfg = s.cfg := by
  unfold handlerStep at h
  repeat' split at h
  all_goals cases h
  all_goals rfl

theorem step_cfg {s s' : PState} {a : Sched} (h : step s a = some s') :
    s'.cfg = s.cfg := by
  cases a with
  | poll => exact pollStep_cfg h
  | handler i => exact handlerStep_cfg h

theorem run_cfg : ∀ {acts : List Sched} {s s' : PState},
    runFrom s acts = some s' → s'.cfg = s.cfg := by
  intro acts
  induction acts with
  | nil =>
    intro s s' hrun
    simp [runFrom] at hrun
    rw [← hrun]
  | cons a rest ih =>
    intro s s' hrun
    simp only [runFrom] at hrun
    cases hstep : step s a with
    | none => rw [hstep] at hrun; cases hrun
    | some s1 =>
      rw [hstep] at hrun
      rw [ih hrun, step_cfg hstep]

theorem crashed_no_step {s : PState} (h : s.crashed = true) (a : Sched) :
    step s a = none := by
  cases a with
  | poll => simp [step, pollStep, h]
  | handler i => simp [step, handlerStep, h]

/-- Claim C1 (counterexample): the claim says every dispatched message gets
exactly one terminal resolution call (delete or change-visibility).  In the
code, resolution calls are made only by the user handler (`Poll` itself
never calls `Delete`/`ChangeVisibilityTimeout`); a handler that makes no
such call — as the repository example permits (`src/main.go` has the
`queue.Delete` call commented out) — leaves the message with zero
resolutions.  Concrete run: one message (id 7), handler returns without
resolving; the run completes with one dispatched handler and zero
resolution calls for id 7. -/
theorem poll_dispatched_message_unresolved :
    (runFrom (initState cfgStd [Fetch.msgs [{ id := 7, resolves := 0, outcome := HOutcome.normal }]])
      [Sched.poll, Sched.poll, Sched.poll, Sched.poll, Sched.handler 0,
       Sched.handler 0, Sched.handler 0, Sched.poll]).map
      (fun s => (s.pc, s.hs.length, resCount 7 s.events)) =
      some (PollPc.returned, 1, 0) := by
  decide

/-- Claim C1 (amended): the poll loop itself performs no terminal
resolution call; in every reachable state the resolution calls recorded for
a message id are exactly those made by the handler bodies that executed,
each on the message value it read from the shared loop variable — so a
dispatched message may end up with zero, one, or several resolutions,
entirely determined by the user handler. -/
theorem poll_resolution_accounting {cfg : Config} {script : List Fetch}
    {acts : List Sched} {s' : PState}
    (hrun : runFrom (initState cfg script) acts = some s') (id : Nat) :
    resCount id s'.events = ghostResolved id s'.hs :=
  (inv_reachable hrun).res_eq id

/-- Witness for `poll_resolution_accounting` at a concrete completed run. -/
theorem poll_resolution_accounting_witness :
    runFrom (initState cfgStd [Fetch.msgs [{ id := 7, resolves := 1, outcome := HOutcome.normal }]])
      [Sched.poll, Sched.poll, Sched.poll, Sched.poll, Sched.handler 0,
       Sched.handler 0, Sched.handler 0, Sched.poll] = some sC1w
    ∧ resCount 7 sC1w.events = ghostResolved 7 sC1w.hs :=
  have h : runFrom (initState cfgStd [Fetch.msgs [{ id := 7, resolves := 1, outcome := HOutcome.normal }]])
      [Sched.poll, Sched.poll, Sched.poll, Sched.poll, Sched.handler 0,
       Sched.handler 0, Sched.handler 0, Sched.poll] = some sC1w := by decide
  ⟨h, poll_resolution_accounting h 7⟩

/-- Claim C2 (counterexample): the claim says the in-flight count is
decremented exactly once per dispatched message whatever the handler
outcome (success, failure, or crash).  The goroutine body
(`src/unnamed/part_001` lines 184-188) runs `inst.handlerCount--` only
after the handler returns, with no `defer`/`recover`: a handler that
panics aborts the process with the count still held.  Concrete run: one
message dispatched under `MaxHandlers = 1`, handler panics; the final state
is crashed with `handlerCount = 1` and the goroutine `faulted`, so the
decrement for that dispatched message never happened (and no step is
enabled in a crashed state, by `crashed_no_step`). -/
theorem poll_fault_leaks_admission_slot :
    (runFrom (initState cfgOne [Fetch.msgs [{ id := 0, resolves := 0, outcome := HOutcome.fault }]])
      [Sched.poll, Sched.poll, Sched.poll, Sched.poll, Sched.handler 0]).map
      (fun s => (s.handlerCount, s.crashed, s.hs, countUnfinished s.hs)) =
      some (1, true,
        [{ phase := HPhase.faulted,
           ranOn := some { id := 0, resolves := 0, outcome := HOutcome.fault } }], 1) := by
  decide

/-- Claim C2 (amended): with a configured maximum `N > 0`, in every
reachable state the in-flight count lies in `[0, N]`; and the count always
equals the number of dispatched handler goroutines that have not executed
their decrement — i.e. the release happens exactly once per handler that
returns normally, and never for one that panicked. -/
theorem poll_inflight_bounds {cfg : Config} {script : List Fetch}
    {acts : List Sched} {s' : PState}
    (hrun : runFrom (initState cfg script) acts = some s')
    (hN : 0 < cfg.MaxHandlers) :
    0 ≤ s'.handlerCount ∧ s'.handlerCount ≤ cfg.MaxHandlers
      ∧ s'.handlerCount = (countUnfinished s'.hs : Int) := by
  have h := inv_reachable hrun
  have hcfg : s'.cfg = cfg := run_cfg hrun
  have hcap := h.cap (by rw [hcfg]; exact hN)
  refine ⟨?_, ?_, h.count_eq⟩
  · rw [h.count_eq]
    omega
  · rw [← hcfg]
    cases hpc : s'.pc with
    | loopTop =>
      simp only [hpc] at hcap
      exact hcap
    | fetching n =>
      simp only [hpc] at hcap
      omega
    | dispatching pending =>
      simp only [hpc] at hcap
      omega
    | draining =>
      simp only [hpc] at hcap
      exact hcap
    | returned =>
      simp only [hpc] at hcap
      exact hcap

/-- Witness for `poll_inflight_bounds` at a concrete mid-run state with one
handler in flight under `MaxHandlers = 2`. -/
theorem poll_inflight_bounds_witness :
    runFrom (initState cfgStd [Fetch.msgs [{ id := 1, resolves := 1, outcome := HOutcome.normal }]])
      [Sched.poll, Sched.poll, Sched.poll, Sched.poll] = some sC2w
    ∧ 0 < cfgStd.MaxHandlers
    ∧ (0 ≤ sC2w.handlerCount ∧ sC2w.handlerCount ≤ cfgStd.MaxHandlers
        ∧ sC2w.handlerCount = (countUnfinished sC2w.hs : Int)) :=
  have h : runFrom (initState cfgStd [Fetch.msgs [{ id := 1, resolves := 1, outcome := HOutcome.normal }]])
      [Sched.poll, Sched.poll, Sched.poll, Sched.poll] = some sC2w := by decide
  ⟨h, by decide, poll_inflight_bounds h (by decide)⟩

/-- Claim C3: the claim says that with no maximum configured
(`MaxHandlers = 0`) the batch-size computation returns the configured
`BatchSize` unmodified, and with a maximum it grants
`max(0, maximum - inFlight)`.  The code's else branch always overwrites
`maxMsgs` with `MaxHandlers - handlerCount`, so in unlimited mode it
requests `0 - handlerCount` messages (0 here, even negative with handlers
in flight) instead of `BatchSize = 10` — the initial `maxMsgs := s.BatchSize`
assignment is dead.  The capped cases behave as claimed. -/
theorem reserve_unlimited_mode_eval :
    reserve 10 0 0 = ReserveOutcome.grant 0
    ∧ reserve 10 0 3 = ReserveOutcome.grant (-3)
    ∧ reserve 10 5 2 = ReserveOutcome.grant 3
    ∧ reserve 10 5 5 = ReserveOutcome.atCapacity := by
  decide

/-- Claim C4 (counterexample): the claim says a failed fetch terminates the
loop and the run returns that first fatal error to the caller.  The
termination part holds, but `Poll` has signature `func (s *Config) Poll()`:
it returns nothing, so the caller receives no error.  Concrete run: the
only fetch fails with "boom"; the loop terminates after exactly that one
fetch (no retry), the error appears only in the trace (log), and the value
returned to the caller is `none`, not the error. -/
theorem poll_fetch_error_not_returned :
    (runFrom (initState cfgStd [Fetch.err "boom"])
      [Sched.poll, Sched.poll, Sched.poll]).map
      (fun s => (s.pc, s.returnedErr, hasErr s.events, s.events)) =
      some (PollPc.returned, none, true, [Event.fetchErr "boom", Event.fetch 2]) := by
  decide

/-- Claim C4 (amended): in every reachable state whose trace contains a
failed fetch, the loop has permanently left the fetch path (it is draining
or returned), no fetch was ever issued after a failed one (no automatic
retry), and `Poll` surfaces no error through its (absent) return value. -/
theorem poll_fetch_error_terminal {cfg : Config} {script : List Fetch}
    {acts : List Sched} {s' : PState}
    (hrun : runFrom (initState cfg script) acts = some s')
    (hE : hasErr s'.events = true) :
    (s'.pc = PollPc.draining ∨ s'.pc = PollPc.returned)
      ∧ badRetry s'.events = false ∧ s'.returnedErr = none :=
  ⟨(inv_reachable hrun).err_pc hE, (inv_reachable hrun).no_retry,
   (inv_reachable hrun).ret_none⟩

/-- Witness for `poll_fetch_error_terminal` at the concrete errored run. -/
theorem poll_fetch_error_terminal_witness :
    runFrom (initState cfgStd [Fetch.err "boom"])
      [Sched.poll, Sched.poll, Sched.poll] = some sC4w
    ∧ hasErr sC4w.events = true
    ∧ ((sC4w.pc = PollPc.draining ∨ sC4w.pc = PollPc.returned)
        ∧ badRetry sC4w.events = false ∧ sC4w.returnedErr = none) :=
  have h : runFrom (initState cfgStd [Fetch.err "boom"])
      [Sched.poll, Sched.poll, Sched.poll] = some sC4w := by decide
  ⟨h, by decide, poll_fetch_error_terminal h (by decide)⟩

/-- Claim C5: the claim says every out-of-bounds configuration fails
construction with a config error, naming `maxBatchSize = 11`,
`maxBatchSize = 0` and `visibilityTimeoutSeconds = -1`.  `validateOpts`
rejects 11 and -1 before any network call, as claimed — but its check is
`BatchSize < 0 || BatchSize > 10`, so `BatchSize = 0` passes even though
the function's own error string documents the range as "between 1-10", and
`NewSQS` then proceeds to the network.  (Note the -1 rejection message is
the source's own copy-paste: it says `WaitSecond`.) -/
theorem validateOpts_bounds_eval :
    validateOpts { cfgStd with BatchSize := 11 } = some "BatchSize should be between 1-10"
    ∧ NewSQS { cfgStd with BatchSize := 11 } { credsOk := true, queueAttrsOk := true }
        = (some "BatchSize should be between 1-10", [])
    ∧ validateOpts { cfgStd with VisibilityTimeout := -1 } = some "WaitSecond should be between 1-43200"
    ∧ NewSQS { cfgStd with VisibilityTimeout := -1 } { credsOk := true, queueAttrsOk := true }
        = (some "WaitSecond should be between 1-43200", [])
    ∧ validateOpts { cfgStd with BatchSize := 0 } = none
    ∧ NewSQS { cfgStd with BatchSize := 0 } { credsOk := true, queueAttrsOk := true }
        = (none, [NetCall.getQueueAttributes]) := by
  decide

/-- Claim C6 (counterexample): the claim says invoking `Poll` with no
registered handler fails with a config error rather than fetching messages
without dispatching them.  The code has no such up-front check: it fetches,
logs "No Poll handler registered" per message, dispatches nothing, and
returns nothing.  Concrete run: one message fetched, `noHandlerLog`
emitted, no goroutine spawned, no error returned. -/
theorem poll_no_handler_still_fetches :
    (runFrom (initState cfgNoHandler [Fetch.msgs [{ id := 3, resolves := 1, outcome := HOutcome.normal }]])
      [Sched.poll, Sched.poll, Sched.poll, Sched.poll, Sched.poll]).map
      (fun s => (s.pc, s.returnedErr, s.hs, s.events)) =
      some (PollPc.returned, none, [], [Event.noHandlerLog, Event.fetch 2]) := by
  decide

/-- Claim C6 (amended): with no handler registered, `Poll` proceeds (it
still fetches, see the counterexample) but never dispatches a handler, the
in-flight count stays 0, and no error of any kind is returned to the
caller. -/
theorem poll_no_handler_never_dispatches {cfg : Config} {script : List Fetch}
    {acts : List Sched} {s' : PState}
    (hrun : runFrom (initState cfg script) acts = some s')
    (hh : cfg.hasHandler = false) :
    s'.hs = [] ∧ s'.handlerCount = 0 ∧ s'.returnedErr = none := by
  have h := inv_reachable hrun
  have hcfg : s'.cfg = cfg := run_cfg hrun
  have hhs : s'.hs = [] := h.no_handler (by rw [hcfg]; exact hh)
  refine ⟨hhs, ?_, h.ret_none⟩
  have hc := h.count_eq
  rw [hhs] at hc
  simpa [countUnfinished, csum] using hc

/-- Witness for `poll_no_handler_never_dispatches` at the concrete run. -/
theorem poll_no_handler_never_dispatches_witness :
    runFrom (initState cfgNoHandler [Fetch.msgs [{ id := 3, resolves := 1, outcome := HOutcome.normal }]])
      [Sched.poll, Sched.poll, Sched.poll, Sched.poll, Sched.poll] = some sC6w
    ∧ cfgNoHandler.hasHandler = false
    ∧ (sC6w.hs = [] ∧ sC6w.handlerCount = 0 ∧ sC6w.returnedErr = none) :=
  have h : runFrom (initState cfgNoHandler [Fetch.msgs [{ id := 3, resolves := 1, outcome := HOutcome.normal }]])
      [Sched.poll, Sched.poll, Sched.poll, Sched.poll, Sched.poll] = some sC6w := by decide
  ⟨h, by decide, poll_no_handler_never_dispatches h (by decide)⟩

/-- Claim C7: at the top of a loop iteration, when a maximum is configured
(`MaxHandlers > 0`) and the in-flight count has reached it (granted
capacity zero), the step issues no `ReceiveMessage` (the fetch script is
untouched and no fetch event is emitted), waits the configured
`BusyTimeout`, and returns to the top of the loop to re-evaluate capacity —
exactly lines 144-150 of `src/unnamed/part_001`. -/
theorem poll_at_capacity_skips_fetch {s : PState}
    (hcr : s.crashed = false) (hpc : s.pc = PollPc.loopTop)
    (hN : 0 < s.cfg.MaxHandlers) (hfull : s.cfg.MaxHandlers ≤ s.handlerCount) :
    pollStep s = some { s with
                        batch := s.batch + 1,
                        events := Event.busyWait s.cfg.BusyTimeout :: s.events } := by
  unfold pollStep
  rw [hcr]
  simp only [Bool.false_eq_true, if_false]
  have hres : reserve s.cfg.BatchSize s.cfg.MaxHandlers s.handlerCount
      = ReserveOutcome.atCapacity := by
    unfold reserve
    exact if_pos ⟨hN, hfull⟩
  simp only [hpc, hres]

/-- Witness for `poll_at_capacity_skips_fetch` at a concrete at-capacity
state. -/
theorem poll_at_capacity_skips_fetch_witness :
    sBusy.crashed = false ∧ sBusy.pc = PollPc.loopTop
    ∧ 0 < sBusy.cfg.MaxHandlers ∧ sBusy.cfg.MaxHandlers ≤ sBusy.handlerCount
    ∧ pollStep sBusy = some { sBusy with
                              batch := sBusy.batch + 1,
                              events := Event.busyWait sBusy.cfg.BusyTimeout :: sBusy.events } :=
  ⟨rfl, rfl, by decide, by decide,
   poll_at_capacity_skips_fetch rfl rfl (by decide) (by decide)⟩

/-- Claim C8: in single-run mode, `Poll` returns only after every
dispatched handler has completed: the final `wg.Wait()` (line 205) releases
only when the WaitGroup is zero, and `w.Done()` runs only after the handler
body — so in any reachable state where the poll goroutine has returned,
every spawned handler goroutine has finished its body (it is past `Done`,
i.e. `didDone` or `finished`). -/
theorem poll_runonce_returns_after_handlers {cfg : Config} {script : List Fetch}
    {acts : List Sched} {s' : PState}
    (hrun : runFrom (initState cfg script) acts = some s')
    (_ho : cfg.RunOnce = true) (hret : s'.pc = PollPc.returned) :
    ∀ t ∈ s'.hs, t.phase = HPhase.didDone ∨ t.phase = HPhase.finished := by
  have h := inv_reachable hrun
  intro t ht
  have h0 := h.ret_wg hret
  have hle := elem_le_csum wgWeight ht
  rw [wgCount] at h0
  have hw0 : wgWeight t = 0 := by omega
  cases hph : t.phase with
  | running => simp [wgWeight, hph] at hw0
  | didBody => simp [wgWeight, hph] at hw0
  | faulted => simp [wgWeight, hph] at hw0
  | didDone => exact Or.inl rfl
  | finished => exact Or.inr rfl

/-- Witness for `poll_runonce_returns_after_handlers` at the completed
single-batch run. -/
theorem poll_runonce_returns_after_handlers_witness :
    runFrom (initState cfgStd [Fetch.msgs [{ id := 9, resolves := 1, outcome := HOutcome.normal }]])
      [Sched.poll, Sched.poll, Sched.poll, Sched.poll, Sched.handler 0,
       Sched.handler 0, Sched.handler 0, Sched.poll] = some sC8w
    ∧ cfgStd.RunOnce = true ∧ sC8w.pc = PollPc.returned
    ∧ (({ phase := HPhase.finished,
          ranOn := some { id := 9, resolves := 1, outcome := HOutcome.normal } } : HThread).phase
          = HPhase.didDone
       ∨ ({ phase := HPhase.finished,
            ranOn := some { id := 9, resolves := 1, outcome := HOutcome.normal } } : HThread).phase
          = HPhase.finished) :=
  have h : runFrom (initState cfgStd [Fetch.msgs [{ id := 9, resolves := 1, outcome := HOutcome.normal }]])
      [Sched.poll, Sched.poll, Sched.poll, Sched.poll, Sched.handler 0,
       Sched.handler 0, Sched.handler 0, Sched.poll] = some sC8w := by decide
  ⟨h, rfl, by decide,
   poll_runonce_returns_after_handlers h rfl (by decide)
     { phase := HPhase.finished,
       ranOn := some { id := 9, resolves := 1, outcome := HOutcome.normal } }
     (by decide)⟩

/-- Claim C10: after the external `SendMessageBatch` call, `Enqueue`
unconditionally logs `len(result.Successful)`/`len(result.Failed)` before
`return err`: when the call failed with a nil result the field access
faults (nil-pointer dereference), so the error is never returned to the
caller past a nil result, and `Enqueue` returns normally only when the
batch result pointer is non-nil. -/
theorem enqueue_derefs_result_before_return :
    (∀ e : String, Enqueue false BatchResultPtr.nilPtr (some e) = EnqueueOutcome.nilDeref)
    ∧ (∀ (r : BatchResultPtr) (err out : Option String),
        Enqueue false r err = EnqueueOutcome.returned out
          → ∃ a b, r = BatchResultPtr.ptr a b) := by
  constructor
  · intro e
    rfl
  · intro r err out hret
    cases r with
    | nilPtr => simp [Enqueue] at hret
    | ptr a b => exact ⟨a, b, rfl⟩

/-- Witness for `enqueue_derefs_result_before_return` at concrete calls. -/
theorem enqueue_derefs_result_before_return_witness :
    Enqueue false BatchResultPtr.nilPtr (some "network down") = EnqueueOutcome.nilDeref
    ∧ ∃ a b, BatchResultPtr.ptr 3 0 = BatchResultPtr.ptr a b :=
  ⟨enqueue_derefs_result_before_return.1 "network down",
   enqueue_derefs_result_before_return.2 (BatchResultPtr.ptr 3 0) none none (by decide)⟩
